import Mathlib

/-! # The ECS core of the 2D game engine

A shallow embedding of `src/ECS/ECS.h` and `src/ECS/ECS.cpp`.

Conventions of the embedding:

* a C++ `int` is an `Int`; the result of `int` arithmetic is reduced to the 32-bit
  two's complement range by `wrapInt` (signed overflow is undefined behaviour in C++; the
  embedding takes the wrapped result that the usual targets compute);
* a `std::vector<T>` is a `List T`; `operator[]` at an index that is not below the size is
  undefined behaviour in C++ and is the fault `Fault.outOfBounds` here;
* a `std::bitset<32>` is the natural number whose binary digits are its bits;
  `bitset::set(pos)` with `pos` not below 32 throws `std::out_of_range` (`Fault.outOfRange`);
* a `std::set<Entity>` is a `Finset Entity` (the order `<` on entities compares ids, so two
  entities are equivalent as keys exactly when they are equal);
* the `std::unordered_map<std::type_index, System*>` is an association list keyed by a
  system type index;
* component types are the elements of a type `τ` with decidable equality; the values stored
  in pools are elements of a type `α` whose `default` is the default-constructed value;
* the static counter `IComponent::nextId` and the function-local statics `id` of
  `Component<T>::GetId` form the explicit state `IdState`;
* `Logger::Log` writes to the console only and is left out.
-/

namespace ECS

/-! ## Machine integers and vectors -/

/-- The largest value of a 32-bit `int`. -/
def INT_MAX : Int := 2147483647

/-- The smallest value of a 32-bit `int`. -/
def INT_MIN : Int := -2147483648

/-- Reduction of an integer to the range of a 32-bit two's complement `int`. -/
def wrapInt (x : Int) : Int := (x + 2147483648) % 4294967296 - 2147483648

/-- The ways in which an operation of the embedding can fail to complete. -/
inductive Fault where
  /-- A `std::vector` was indexed at a position not below its size (undefined behaviour). -/
  | outOfBounds
  /-- Thrown by `std::bitset::set` for a position not below the width (`std::out_of_range`). -/
  | outOfRange
  /-- Thrown by `std::vector::resize` for a size beyond `max_size()` (`std::length_error`);
  this is what a negative `int` converted to `size_t` asks for. -/
  | lengthError
  deriving DecidableEq, Repr

/-- The comparison `i >= v.size()` of an `int` with a `size_t`: the `int` is converted to
`size_t`, so a negative `i` becomes larger than every vector size. -/
def sizeGE (i : Int) (size : Nat) : Bool := decide (i < 0 ∨ (size : Int) ≤ i)

/-- The call `v.resize(n, fill)` of `std::vector` with an `int` argument: keeps the first `n`
elements and pads with `fill` up to length `n`. -/
def vecResize {β : Type} (v : List β) (n : Int) (fill : β) : Except Fault (List β) :=
  if n < 0 then .error .lengthError
  else .ok (v.take n.toNat ++ List.replicate (n.toNat - v.length) fill)

/-- Reading `v[i]` of a `std::vector` with an `int` index. -/
def vecGet {β : Type} (v : List β) (i : Int) : Except Fault β :=
  if 0 ≤ i then
    match v[i.toNat]? with
    | some x => .ok x
    | none => .error .outOfBounds
  else .error .outOfBounds

/-- The assignment `v[i] = x` of a `std::vector` with an `int` index. -/
def vecSet {β : Type} (v : List β) (i : Int) (x : β) : Except Fault (List β) :=
  if 0 ≤ i ∧ i.toNat < v.length then .ok (v.set i.toNat x) else .error .outOfBounds

/-! ## Signatures -/

/-- The constant `MAX_COMPONENTS`. -/
def MAX_COMPONENTS : Nat := 32

/-- A `std::bitset<MAX_COMPONENTS>`, as the number whose binary digits are the bits. -/
abbrev Signature := Nat

/-- The call `signature.set(pos)` with an `int` position. -/
def Signature.set (s : Signature) (pos : Int) : Except Fault Signature :=
  if 0 ≤ pos ∧ pos < (MAX_COMPONENTS : Int) then .ok (s ||| (1 <<< pos.toNat))
  else .error .outOfRange

/-- The matching predicate `(entitySignature & systemSignature) == systemSignature`. -/
def Signature.matches (entitySignature systemSignature : Signature) : Bool :=
  (entitySignature &&& systemSignature) == systemSignature

/-! ## Component type ids -/

/-- The state of component id assignment: the counter `IComponent::nextId` and, for every
component type whose `GetId` has run, the value of its function-local static `id`
(most recently initialised first). -/
structure IdState (τ : Type) where
  nextId : Int
  assigned : List (τ × Int)

/-- The state at program start, with the counter at `counter`. ECS.h declares
`static int nextId` and no source file defines it, so its first value is a parameter. -/
def IdState.initial {τ : Type} (counter : Int) : IdState τ :=
  { nextId := counter, assigned := [] }

/-- The static `id` of `Component<T>::GetId`, when it has been initialised. -/
def lookupId {τ : Type} [DecidableEq τ] (T : τ) : List (τ × Int) → Option Int
  | [] => none
  | (U, k) :: rest => if U = T then some k else lookupId T rest

/-- The function `Component<T>::GetId()`: `static auto id = nextId++; return id;`. The
initialiser runs on the first call for `T` only. -/
def Component.GetId {τ : Type} [DecidableEq τ] (T : τ) (s : IdState τ) : Int × IdState τ :=
  match lookupId T s.assigned with
  | some id => (id, s)
  | none =>
    (s.nextId, { nextId := wrapInt (s.nextId + 1), assigned := (T, s.nextId) :: s.assigned })

/-- A sequence of `GetId` calls, one per listed component type, in order; returns the ids
that the calls returned and the final state. -/
def Component.GetIds {τ : Type} [DecidableEq τ] : List τ → IdState τ → List Int × IdState τ
  | [], s => ([], s)
  | T :: rest, s =>
    let (k, s1) := Component.GetId T s
    let (ks, s2) := Component.GetIds rest s1
    (k :: ks, s2)

/-! ## Entities -/

/-- The class `Entity`. -/
structure Entity where
  id : Int
  deriving DecidableEq, Repr

/-- The accessor `Entity::GetId`. -/
def Entity.GetId (e : Entity) : Int := e.id

/-- The operator `==` of `Entity`. -/
def Entity.eq (a other : Entity) : Bool := a.id == other.GetId

/-- The operator `!=` of `Entity`. -/
def Entity.ne (a other : Entity) : Bool := a.id != other.GetId

/-- The operator `<` of `Entity`. -/
def Entity.lt (a other : Entity) : Bool := decide (a.id < other.GetId)

/-- The operator `>` of `Entity`. -/
def Entity.gt (a other : Entity) : Bool := decide (a.id > other.GetId)

/-! ## Systems -/

/-- The class `System`. -/
structure System where
  componentSignature : Signature
  entities : List Entity
  deriving DecidableEq, Repr

/-- The default constructor `System()`. -/
def System.new : System := { componentSignature := 0, entities := [] }

/-- The method `System::AddEntityToSystem`. -/
def System.AddEntityToSystem (s : System) (entity : Entity) : System :=
  { s with entities := s.entities ++ [entity] }

/-- The method `System::RemoveEntityFromSystem`: erase-remove of the entities equal to
`entity`. -/
def System.RemoveEntityFromSystem (s : System) (entity : Entity) : System :=
  { s with entities := s.entities.filter (fun other => !(entity.eq other)) }

/-- The method `System::GetComponentSignature`. -/
def System.GetComponentSignature (s : System) : Signature := s.componentSignature

/-- The method `System::GetSystemEntities`. -/
def System.GetSystemEntities (s : System) : List Entity := s.entities

/-- The method `System::RequireComponent<TComponent>`. -/
def System.RequireComponent {τ : Type} [DecidableEq τ] (T : τ) (ids : IdState τ) (s : System) :
    Except Fault (IdState τ × System) :=
  let (componentId, ids1) := Component.GetId T ids
  match Signature.set s.componentSignature componentId with
  | .ok sig => .ok (ids1, { s with componentSignature := sig })
  | .error f => .error f

/-! ## Pools -/

/-- The class `Pool<T>`. -/
structure Pool (α : Type) where
  data : List α

/-- The constructor `Pool(int size = 100)`. -/
def Pool.new {α : Type} [Inhabited α] (size : Int) : Except Fault (Pool α) :=
  match vecResize ([] : List α) size default with
  | .ok d => .ok { data := d }
  | .error f => .error f

/-- The method `Pool::IsEmpty`. -/
def Pool.IsEmpty {α : Type} (p : Pool α) : Bool := p.data.isEmpty

/-- The method `Pool::GetSize`; the `size_t` size is narrowed to `int`. -/
def Pool.GetSize {α : Type} (p : Pool α) : Int := wrapInt p.data.length

/-- The method `Pool::Resize`. -/
def Pool.Resize {α : Type} [Inhabited α] (p : Pool α) (n : Int) : Except Fault (Pool α) :=
  match vecResize p.data n default with
  | .ok d => .ok { data := d }
  | .error f => .error f

/-- The method `Pool::Clear`. -/
def Pool.Clear {α : Type} (_p : Pool α) : Pool α := { data := [] }

/-- The method `Pool::Add`. -/
def Pool.Add {α : Type} (p : Pool α) (object : α) : Pool α := { data := p.data ++ [object] }

/-- The method `Pool::Set`. -/
def Pool.Set {α : Type} (p : Pool α) (index : Int) (object : α) : Except Fault (Pool α) :=
  match vecSet p.data index object with
  | .ok d => .ok { data := d }
  | .error f => .error f

/-- The method `Pool::Get`. -/
def Pool.Get {α : Type} (p : Pool α) (index : Int) : Except Fault α := vecGet p.data index

/-! ## The registry -/

/-- The class `Registry`. A null entry of `componentPools` is `none`. -/
structure Registry (α : Type) where
  numEntities : Int
  entitiesToBeAdded : Finset Entity
  entitiesToBeKilled : Finset Entity
  componentPools : List (Option (Pool α))
  entityComponentSignatures : List Signature
  systems : List (Nat × System)

/-- The default constructor `Registry()`. -/
def Registry.new {α : Type} : Registry α :=
  { numEntities := 0
    entitiesToBeAdded := ∅
    entitiesToBeKilled := ∅
    componentPools := []
    entityComponentSignatures := []
    systems := [] }

/-- The method `Registry::CreateEntity`. -/
def Registry.CreateEntity {α : Type} (r : Registry α) : Entity × Registry α :=
  let entityId := r.numEntities
  let entity : Entity := { id := entityId }
  (entity,
    { r with
      numEntities := wrapInt (r.numEntities + 1)
      entitiesToBeAdded := insert entity r.entitiesToBeAdded })

/-- The method `Registry::Update`; its body in ECS.cpp consists of two TODO comments. -/
def Registry.Update {α : Type} (r : Registry α) : Registry α := r

/-- Lines 149 to 161 of `Registry::AddComponent<T>`: grows `componentPools` to hold
`componentId`, creates the pool of 100 slots when the entry is null, and takes the pool of the
component type. Line 161, `Pool<T>* componentPool = Pool<T>(componentPools[componentId])`, is
read as taking the pool stored at `componentPools[componentId]`. Returns the vector of pools
and the pool taken. -/
def Registry.AddComponent.locatePool {α : Type} [Inhabited α] (componentId : Int)
    (componentPools : List (Option (Pool α))) :
    Except Fault (List (Option (Pool α)) × Pool α) := do
  let pools1 ←
    (if sizeGE componentId componentPools.length then
      vecResize componentPools (wrapInt (componentId + 1)) none
    else pure componentPools)
  let stored ← vecGet pools1 componentId
  match stored with
  | some pool => pure (pools1, pool)
  | none =>
    let newComponentPool ← Pool.new 100
    let pools2 ← vecSet pools1 componentId (some newComponentPool)
    pure (pools2, newComponentPool)

/-- Lines 163 to 166 of `Registry::AddComponent<T>`: the conditional
`componentPool->Resize(numEntities)`. -/
def Registry.AddComponent.ensureSize {α : Type} [Inhabited α] (entityId numEntities : Int)
    (componentPool : Pool α) : Except Fault (Pool α) :=
  if entityId ≥ componentPool.GetSize then componentPool.Resize numEntities
  else pure componentPool

/-- The method `Registry::AddComponent<T>`; `newComponent` is the value constructed from the
arguments. The pool is held by pointer in C++, so the pool written to is the one stored in
`componentPools`. -/
def Registry.AddComponent {τ α : Type} [DecidableEq τ] [Inhabited α] (T : τ) (entity : Entity)
    (newComponent : α) (ids : IdState τ) (r : Registry α) :
    Except Fault (IdState τ × Registry α) := do
  let (componentId, ids1) := Component.GetId T ids
  let entityId := entity.GetId
  let (pools1, componentPool) ← Registry.AddComponent.locatePool componentId r.componentPools
  let resized ← Registry.AddComponent.ensureSize entityId r.numEntities componentPool
  let written ← resized.Set entityId newComponent
  let pools2 ← vecSet pools1 componentId (some written)
  let signature ← vecGet r.entityComponentSignatures entityId
  let signature1 ← Signature.set signature componentId
  let signatures1 ← vecSet r.entityComponentSignatures entityId signature1
  pure (ids1, { r with componentPools := pools2, entityComponentSignatures := signatures1 })

/-- Lines 146 to 173 of `Registry::AddComponent<T>`: everything the method does before it
touches `entityComponentSignatures`. The pools are changed in place in C++, so the registry
returned is the registry as it is when the last statement (line 176) is reached. -/
def Registry.AddComponent.storeComponent {τ α : Type} [DecidableEq τ] [Inhabited α] (T : τ)
    (entity : Entity) (newComponent : α) (ids : IdState τ) (r : Registry α) :
    Except Fault (IdState τ × Registry α) := do
  let (componentId, ids1) := Component.GetId T ids
  let entityId := entity.GetId
  let (pools1, componentPool) ← Registry.AddComponent.locatePool componentId r.componentPools
  let resized ← Registry.AddComponent.ensureSize entityId r.numEntities componentPool
  let written ← resized.Set entityId newComponent
  let pools2 ← vecSet pools1 componentId (some written)
  pure (ids1, { r with componentPools := pools2 })

/-- Line 176 of `Registry::AddComponent<T>`:
`entityComponentSignatures[entityId].set(componentId)`. -/
def Registry.AddComponent.setSignature {α : Type} (componentId : Int) (entity : Entity)
    (r : Registry α) : Except Fault (Registry α) := do
  let signature ← vecGet r.entityComponentSignatures entity.GetId
  let signature1 ← Signature.set signature componentId
  let signatures1 ← vecSet r.entityComponentSignatures entity.GetId signature1
  pure { r with entityComponentSignatures := signatures1 }

/-- The calls of the registry that take part in the entity lifecycle. -/
inductive RegistryCall where
  | createEntity
  | update
  deriving DecidableEq, Repr

/-- A sequence of `CreateEntity` and `Update` calls on a registry, in order; returns the
entities that the `CreateEntity` calls returned and the final registry. -/
def Registry.run {α : Type} : List RegistryCall → Registry α → List Entity × Registry α
  | [], r => ([], r)
  | .createEntity :: rest, r =>
    let (e, r1) := r.CreateEntity
    let (es, r2) := Registry.run rest r1
    (e :: es, r2)
  | .update :: rest, r => Registry.run rest r.Update

/-- A registry whose entity counter has reached the largest `int`. -/
def Registry.atIntMax : Registry Nat :=
  { (Registry.new : Registry Nat) with numEntities := INT_MAX }

/-- The invariant of id assignment from the counter `c0` while the counter stays in the `int`
range: the counter is `c0` plus the number of assigned types, no type is assigned twice, no id
is assigned twice, and every assigned id is below the counter. -/
def IdState.Sequential {τ : Type} (c0 : Int) (s : IdState τ) : Prop :=
  INT_MIN ≤ c0 ∧ s.nextId = c0 + (s.assigned.length : Int) ∧
    (s.assigned.map Prod.fst).Nodup ∧ (s.assigned.map Prod.snd).Nodup ∧
    ∀ k ∈ s.assigned.map Prod.snd, k < s.nextId

/-! # Theorems -/

/-! ## Integer range lemmas -/

theorem wrapInt_of_inRange (x : Int) (hlo : INT_MIN ≤ x) (hhi : x ≤ INT_MAX) : wrapInt x = x := by
  unfold INT_MIN at hlo
  unfold INT_MAX at hhi
  unfold wrapInt
  omega

theorem wrapInt_le_of_nonneg (x : Int) (h : 0 ≤ x) : wrapInt x ≤ x := by
  unfold wrapInt
  omega

/-! ## Registry.Update -/

/-- C2 (evaluation at the failing input): after `CreateEntity()` on a new registry and then
`Update()`, the set `entitiesToBeAdded` still holds the created entity and is not empty. -/
theorem Update_keeps_pending_entity :
    ((Registry.new : Registry Nat).CreateEntity.2.Update).entitiesToBeAdded = {{ id := 0 }} ∧
    ((Registry.new : Registry Nat).CreateEntity.2.Update).entitiesToBeAdded ≠ ∅ := by
  constructor
  · rfl
  · decide

/-! ## Registry.CreateEntity -/

theorem run_created_from {α : Type} (calls : List RegistryCall) :
    ∀ (r : Registry α), 0 ≤ r.numEntities →
      r.numEntities + (calls.count RegistryCall.createEntity : Int) ≤ INT_MAX →
      (Registry.run calls r).1 =
        (List.range (calls.count RegistryCall.createEntity)).map
          (fun (k : Nat) => ({ id := r.numEntities + (k : Int) } : Entity)) := by
  induction calls with
  | nil => intro r _ _; simp [Registry.run]
  | cons c rest ih =>
    intro r h0 hmax
    cases c with
    | createEntity =>
      have hcount : (RegistryCall.createEntity :: rest).count RegistryCall.createEntity
          = rest.count RegistryCall.createEntity + 1 := by simp
      rw [hcount] at hmax ⊢
      push_cast at hmax
      have hwrap : wrapInt (r.numEntities + 1) = r.numEntities + 1 :=
        wrapInt_of_inRange _ (by unfold INT_MIN; omega) (by omega)
      have ih1 := ih (r.CreateEntity).2
        (by show 0 ≤ wrapInt (r.numEntities + 1); rw [hwrap]; omega)
        (by show wrapInt (r.numEntities + 1) + _ ≤ INT_MAX; rw [hwrap]; omega)
      have hnum : (r.CreateEntity).2.numEntities = r.numEntities + 1 := hwrap
      rw [hnum] at ih1
      simp only [Registry.run]
      rw [ih1, List.range_succ_eq_map]
      simp [Registry.CreateEntity, Function.comp_def]
      intro a _
      omega
    | update =>
      have hcount : (RegistryCall.update :: rest).count RegistryCall.createEntity
          = rest.count RegistryCall.createEntity := by simp
      rw [hcount] at hmax ⊢
      simpa [Registry.run, Registry.Update] using ih r h0 hmax

/-- C3: on a new registry, for every sequence of `CreateEntity` and `Update` calls in which
`numEntities` is below the `int` maximum at every `CreateEntity` call (the sequence has at most
`INT_MAX` such calls), the k-th `CreateEntity` call returns the entity with id k; so the ids
of the created entities are strictly increasing in creation order and no two of them are
equal. -/
theorem CreateEntity_ids_sequential {α : Type} (calls : List RegistryCall)
    (hmax : (calls.count RegistryCall.createEntity : Int) ≤ INT_MAX) :
    (Registry.run calls (Registry.new : Registry α)).1 =
        (List.range (calls.count RegistryCall.createEntity)).map
          (fun (k : Nat) => ({ id := (k : Int) } : Entity)) ∧
      (Registry.run calls (Registry.new : Registry α)).1.Pairwise (fun a b => a.id < b.id) ∧
      (Registry.run calls (Registry.new : Registry α)).1.Nodup := by
  have h := run_created_from calls (Registry.new : Registry α) (by simp [Registry.new])
    (by simpa [Registry.new] using hmax)
  have h1 : (Registry.run calls (Registry.new : Registry α)).1 =
      (List.range (calls.count RegistryCall.createEntity)).map
        (fun (k : Nat) => ({ id := (k : Int) } : Entity)) := by
    simpa [Registry.new] using h
  have h2 : (Registry.run calls (Registry.new : Registry α)).1.Pairwise
      (fun a b => a.id < b.id) := by
    rw [h1, List.pairwise_map]
    exact (List.pairwise_lt_range _).imp (fun hab => by simpa using hab)
  refine ⟨h1, h2, ?_⟩
  exact h2.imp (fun hab heq => by rw [heq] at hab; exact lt_irrefl _ hab)

/-- Witness of C3: create, update, create, create on a new registry returns the entities
0, 1, 2. -/
theorem CreateEntity_ids_sequential_witness :
    ((([RegistryCall.createEntity, .update, .createEntity, .createEntity].count
        RegistryCall.createEntity : Nat) : Int) ≤ INT_MAX) ∧
    (Registry.run [RegistryCall.createEntity, .update, .createEntity, .createEntity]
        (Registry.new : Registry Nat)).1 =
      (List.range ([RegistryCall.createEntity, .update, .createEntity, .createEntity].count
        RegistryCall.createEntity)).map (fun (k : Nat) => ({ id := (k : Int) } : Entity)) :=
  ⟨by decide, (@CreateEntity_ids_sequential Nat
    [RegistryCall.createEntity, .update, .createEntity, .createEntity] (by decide)).1⟩

/-- C4 (counterexample): in a registry whose `numEntities` is `INT_MAX`, `CreateEntity` does
not leave `numEntities` one larger: the incremented counter is not `INT_MAX + 1`. -/
theorem CreateEntity_counter_at_int_max :
    (Registry.atIntMax.CreateEntity).2.numEntities ≠ Registry.atIntMax.numEntities + 1 ∧
    (Registry.atIntMax.CreateEntity).2.numEntities = INT_MIN := by
  constructor
  · decide
  · decide

/-- C4 (amended): for every registry state `r` whose `numEntities` is an `int` below the `int`
maximum, `CreateEntity` returns the entity `e` with `e.id = r.numEntities`, and in the
resulting state `numEntities = r.numEntities + 1` and `entitiesToBeAdded` is
`r.entitiesToBeAdded ∪ {e}`: `e` is a member and every previously pending entity still is. -/
theorem CreateEntity_queues_entity {α : Type} (r : Registry α)
    (hlo : INT_MIN ≤ r.numEntities) (hhi : r.numEntities < INT_MAX) :
    (r.CreateEntity).1.id = r.numEntities ∧
      (r.CreateEntity).2.numEntities = r.numEntities + 1 ∧
      (r.CreateEntity).2.entitiesToBeAdded = r.entitiesToBeAdded ∪ {(r.CreateEntity).1} ∧
      (r.CreateEntity).1 ∈ (r.CreateEntity).2.entitiesToBeAdded ∧
      r.entitiesToBeAdded ⊆ (r.CreateEntity).2.entitiesToBeAdded := by
  refine ⟨rfl, ?_, ?_, ?_, ?_⟩
  · exact wrapInt_of_inRange _ (by unfold INT_MIN at *; omega) (by omega)
  · simp [Registry.CreateEntity, Finset.union_comm, Finset.insert_eq]
  · simp [Registry.CreateEntity]
  · simp [Registry.CreateEntity]

/-- Witness of C4: `CreateEntity` on a new registry. -/
theorem CreateEntity_queues_entity_witness :
    ((Registry.new : Registry Nat).CreateEntity).1.id = 0 ∧
      ((Registry.new : Registry Nat).CreateEntity).2.numEntities = 0 + 1 :=
  have h := CreateEntity_queues_entity (Registry.new : Registry Nat) (by decide) (by decide)
  ⟨h.1, h.2.1⟩

/-- C5: `CreateEntity` leaves the `systems` map (every registered system with its entity list
and signature), `entitiesToBeKilled`, `componentPools` and `entityComponentSignatures`
unchanged; so every registered system that did not list the new id before the call is still
registered, unchanged, after it and does not list the returned entity. -/
theorem CreateEntity_defers_membership {α : Type} (r : Registry α) :
    (r.CreateEntity).2.systems = r.systems ∧
      (r.CreateEntity).2.entitiesToBeKilled = r.entitiesToBeKilled ∧
      (r.CreateEntity).2.componentPools = r.componentPools ∧
      (r.CreateEntity).2.entityComponentSignatures = r.entityComponentSignatures ∧
      (∀ p ∈ r.systems, (∀ x ∈ p.2.entities, x.id ≠ r.numEntities) →
        p ∈ (r.CreateEntity).2.systems ∧ (r.CreateEntity).1 ∉ p.2.GetSystemEntities) := by
  refine ⟨rfl, rfl, rfl, rfl, ?_⟩
  intro p hp hnew
  refine ⟨hp, ?_⟩
  intro hmem
  exact hnew _ hmem rfl

theorem lt_length_of_lt_GetSize {α : Type} (pool : Pool α) (i : Int) (h0 : 0 ≤ i)
    (h : i < pool.GetSize) : i.toNat < pool.data.length := by
  have hle := wrapInt_le_of_nonneg (pool.data.length : Int) (by omega)
  unfold Pool.GetSize at h
  omega

theorem Pool.Set_ok {α : Type} (pool : Pool α) (i : Int) (v : α) (h0 : 0 ≤ i)
    (h : i.toNat < pool.data.length) :
    pool.Set i v = .ok { data := pool.data.set i.toNat v } := by
  simp [Pool.Set, vecSet, h0, h]

theorem Pool.Set_fault {α : Type} (pool : Pool α) (i : Int) (v : α)
    (h : ¬ (0 ≤ i ∧ i.toNat < pool.data.length)) :
    pool.Set i v = .error .outOfBounds := by
  simp only [Pool.Set, vecSet, if_neg h]

theorem vecGet_ok {β : Type} (v : List β) (i : Int) (x : β) (h0 : 0 ≤ i)
    (h : v[i.toNat]? = some x) : vecGet v i = .ok x := by
  simp [vecGet, h0, h]

theorem Except.bind_eq_ok_iff {ε β γ : Type} (x : Except ε β) (f : β → Except ε γ) (c : γ) :
    (x >>= f) = .ok c ↔ ∃ b, x = .ok b ∧ f b = .ok c := by
  cases x with
  | error e => simp [bind, Except.bind]
  | ok b => simp [bind, Except.bind]

/-- The stages of `AddComponent<T>`: the call completes exactly when each stage does, and its
result is assembled from the results of the stages. -/
theorem AddComponent_eq_ok_iff {τ α : Type} [DecidableEq τ] [Inhabited α] (T : τ) (e : Entity)
    (v : α) (ids : IdState τ) (r : Registry α) (out : IdState τ × Registry α) :
    Registry.AddComponent T e v ids r = .ok out ↔
      ∃ pools1 pool resized written pools2 sig sig1 sigs1,
        Registry.AddComponent.locatePool (Component.GetId T ids).1 r.componentPools
          = .ok (pools1, pool) ∧
        Registry.AddComponent.ensureSize e.id r.numEntities pool = .ok resized ∧
        resized.Set e.id v = .ok written ∧
        vecSet pools1 (Component.GetId T ids).1 (some written) = .ok pools2 ∧
        vecGet r.entityComponentSignatures e.id = .ok sig ∧
        Signature.set sig (Component.GetId T ids).1 = .ok sig1 ∧
        vecSet r.entityComponentSignatures e.id sig1 = .ok sigs1 ∧
        out = ((Component.GetId T ids).2,
          { r with componentPools := pools2, entityComponentSignatures := sigs1 }) := by
  unfold Registry.AddComponent
  simp only [Except.bind_eq_ok_iff, Entity.GetId]
  constructor
  · rintro ⟨⟨pools1, pool⟩, h1, resized, h2, written, h3, pools2, h4, sig, h5, sig1, h6,
      sigs1, h7, h8⟩
    refine ⟨pools1, pool, resized, written, pools2, sig, sig1, sigs1, h1, h2, h3, h4, h5, h6,
      h7, ?_⟩
    simpa [pure, Except.pure] using h8.symm
  · rintro ⟨pools1, pool, resized, written, pools2, sig, sig1, sigs1, h1, h2, h3, h4, h5, h6,
      h7, h8⟩
    refine ⟨(pools1, pool), h1, resized, h2, written, h3, pools2, h4, sig, h5, sig1, h6,
      sigs1, h7, ?_⟩
    simp [pure, Except.pure, h8]

theorem vecGet_eq_ok_iff {β : Type} (v : List β) (i : Int) (x : β) :
    vecGet v i = .ok x ↔ 0 ≤ i ∧ v[i.toNat]? = some x := by
  unfold vecGet
  split
  · rename_i h0
    cases hx : v[i.toNat]? with
    | none => simp
    | some y => simp [h0]
  · rename_i h0
    simp [h0]

theorem vecSet_eq_ok_iff {β : Type} (v : List β) (i : Int) (x : β) (w : List β) :
    vecSet v i x = .ok w ↔ (0 ≤ i ∧ i.toNat < v.length) ∧ w = v.set i.toNat x := by
  unfold vecSet
  split
  · rename_i h
    simp [h, eq_comm]
  · rename_i h
    simp [h]

theorem Pool.Resize_eq_ok_iff {α : Type} [Inhabited α] (pool : Pool α) (n : Int) (q : Pool α) :
    pool.Resize n = .ok q ↔
      0 ≤ n ∧ q = { data := pool.data.take n.toNat ++
        List.replicate (n.toNat - pool.data.length) default } := by
  unfold Pool.Resize vecResize
  by_cases hn : n < 0
  · simp [hn]
  · simp [hn, eq_comm]
    omega

/-- The pool that `locatePool` returns is stored in the returned vector at `componentId`. -/
theorem locatePool_stored {α : Type} [Inhabited α] (componentId : Int)
    (componentPools pools1 : List (Option (Pool α))) (pool : Pool α)
    (h : Registry.AddComponent.locatePool componentId componentPools = .ok (pools1, pool)) :
    0 ≤ componentId ∧ pools1[componentId.toNat]? = some (some pool) := by
  unfold Registry.AddComponent.locatePool at h
  simp only [Except.bind_eq_ok_iff] at h
  obtain ⟨pools0, _, stored, hget, hrest⟩ := h
  obtain ⟨h0, hstored⟩ := (vecGet_eq_ok_iff _ _ _).mp hget
  cases stored with
  | some p =>
    simp only [pure, Except.pure, Except.ok.injEq, Prod.mk.injEq] at hrest
    obtain ⟨h1, h2⟩ := hrest
    subst h1 h2
    exact ⟨h0, hstored⟩
  | none =>
    simp only [Except.bind_eq_ok_iff] at hrest
    obtain ⟨newPool, _, pools2, hset, hret⟩ := hrest
    simp only [pure, Except.pure, Except.ok.injEq, Prod.mk.injEq] at hret
    obtain ⟨h1, h2⟩ := hret
    subst h1 h2
    obtain ⟨⟨_, hlt⟩, hw⟩ := (vecSet_eq_ok_iff _ _ _ _).mp hset
    refine ⟨h0, ?_⟩
    rw [hw]
    simp [hlt]

theorem Signature.set_ok (s : Signature) (pos : Int) (h : 0 ≤ pos ∧ pos < 32) :
    Signature.set s pos = .ok (s ||| (1 <<< pos.toNat)) := by
  have h2 : 0 ≤ pos ∧ pos < (MAX_COMPONENTS : Int) := by simpa [MAX_COMPONENTS] using h
  simp only [Signature.set, if_pos h2]

theorem testBit_set_self (s : Nat) (k : Nat) : (s ||| (1 <<< k)).testBit k = true := by
  simp [Nat.testBit_or, Nat.one_shiftLeft, Nat.testBit_two_pow_self]

/-- C6 (evaluation at the failing input): on a new registry, `AddComponent<T>` for the entity
that `CreateEntity` has just returned does not complete: `entityComponentSignatures` is empty,
so the access `entityComponentSignatures[0]` is out of bounds. More generally the call cannot
complete in any registry whose `entityComponentSignatures` is empty, whatever the entity, the
component type, the value and the id state. -/
theorem AddComponent_created_entity_out_of_bounds :
    Registry.AddComponent (0 : Nat) ((Registry.new : Registry Nat).CreateEntity).1 (7 : Nat)
        (IdState.initial 0) ((Registry.new : Registry Nat).CreateEntity).2
      = .error .outOfBounds ∧
    (∀ (T : Nat) (e : Entity) (v : Nat) (ids : IdState Nat) (r : Registry Nat),
      r.entityComponentSignatures = [] →
      ∀ out, Registry.AddComponent T e v ids r ≠ .ok out) := by
  constructor
  · rfl
  · intro T e v ids r hnil out hok
    obtain ⟨_, _, _, _, _, sig, _, _, _, _, _, _, hget, _⟩ :=
      (AddComponent_eq_ok_iff T e v ids r out).mp hok
    rw [hnil] at hget
    have := (vecGet_eq_ok_iff _ _ _).mp hget
    simp at this

/-! ## Component type ids -/

theorem GetId_of_assigned {τ : Type} [DecidableEq τ] (T : τ) (s : IdState τ) (k : Int)
    (h : lookupId T s.assigned = some k) : Component.GetId T s = (k, s) := by
  simp [Component.GetId, h]

theorem GetId_of_unassigned {τ : Type} [DecidableEq τ] (T : τ) (s : IdState τ)
    (h : lookupId T s.assigned = none) :
    Component.GetId T s =
      (s.nextId, { nextId := wrapInt (s.nextId + 1), assigned := (T, s.nextId) :: s.assigned }) := by
  simp [Component.GetId, h]

theorem lookupId_GetId_self {τ : Type} [DecidableEq τ] (T : τ) (s : IdState τ) :
    lookupId T (Component.GetId T s).2.assigned = some (Component.GetId T s).1 := by
  cases h : lookupId T s.assigned with
  | some k => rw [GetId_of_assigned T s k h]; exact h
  | none => rw [GetId_of_unassigned T s h]; simp [lookupId]

theorem lookupId_GetId_of_assigned {τ : Type} [DecidableEq τ] (T U : τ) (s : IdState τ) (k : Int)
    (h : lookupId U s.assigned = some k) :
    lookupId U (Component.GetId T s).2.assigned = some k := by
  cases hT : lookupId T s.assigned with
  | some j => rw [GetId_of_assigned T s j hT]; exact h
  | none =>
    rw [GetId_of_unassigned T s hT]
    have hne : T ≠ U := by
      intro heq
      rw [heq, h] at hT
      exact Option.noConfusion hT
    simp [lookupId, hne, h]

theorem lookupId_GetIds_of_assigned {τ : Type} [DecidableEq τ] (ts : List τ) :
    ∀ (s : IdState τ) (U : τ) (k : Int), lookupId U s.assigned = some k →
      lookupId U (Component.GetIds ts s).2.assigned = some k := by
  induction ts with
  | nil => intro s U k h; exact h
  | cons T rest ih =>
    intro s U k h
    exact ih _ U k (lookupId_GetId_of_assigned T U s k h)

/-- C8: for every id-assignment state and every component type `T`, once
`Component<T>::GetId()` has returned `k`, then after any further sequence of `GetId` calls (for
any component types) a call of `Component<T>::GetId()` returns the same `k` and leaves the
id-assignment state, and so the counter `nextId`, as it is. -/
theorem GetId_stable {τ : Type} [DecidableEq τ] (T : τ) (s : IdState τ) (between : List τ) :
    Component.GetId T (Component.GetIds between (Component.GetId T s).2).2 =
        ((Component.GetId T s).1, (Component.GetIds between (Component.GetId T s).2).2) ∧
      (Component.GetId T (Component.GetIds between (Component.GetId T s).2).2).2.nextId =
        (Component.GetIds between (Component.GetId T s).2).2.nextId := by
  have h := GetId_of_assigned T _ _
    (lookupId_GetIds_of_assigned between _ T _ (lookupId_GetId_self T s))
  exact ⟨h, by rw [h]⟩

theorem lookupId_eq_none_iff {τ : Type} [DecidableEq τ] (T : τ) (l : List (τ × Int)) :
    lookupId T l = none ↔ T ∉ l.map Prod.fst := by
  induction l with
  | nil => simp [lookupId]
  | cons p rest ih =>
    obtain ⟨U, k⟩ := p
    by_cases h : U = T
    · simp [lookupId, h]
    · simp [lookupId, h, ih, Ne.symm h]

theorem mem_of_lookupId {τ : Type} [DecidableEq τ] (T : τ) (k : Int) (l : List (τ × Int))
    (h : lookupId T l = some k) : (T, k) ∈ l := by
  induction l with
  | nil => simp [lookupId] at h
  | cons p rest ih =>
    obtain ⟨U, j⟩ := p
    by_cases hU : U = T
    · simp [lookupId, hU] at h
      simp [hU, h]
    · simp [lookupId, hU] at h
      exact List.mem_cons_of_mem _ (ih h)

theorem keys_GetId {τ : Type} [DecidableEq τ] (T : τ) (s : IdState τ) :
    ((Component.GetId T s).2.assigned.map Prod.fst).toFinset =
      insert T (s.assigned.map Prod.fst).toFinset := by
  cases h : lookupId T s.assigned with
  | some k =>
    rw [GetId_of_assigned T s k h]
    have hmem : T ∈ (s.assigned.map Prod.fst).toFinset := by
      rw [List.mem_toFinset]
      exact List.mem_map.mpr ⟨(T, k), mem_of_lookupId T k _ h, rfl⟩
    exact (Finset.insert_eq_of_mem hmem).symm
  | none =>
    rw [GetId_of_unassigned T s h]
    simp

theorem keys_GetIds {τ : Type} [DecidableEq τ] (ts : List τ) :
    ∀ s : IdState τ, ((Component.GetIds ts s).2.assigned.map Prod.fst).toFinset =
      (s.assigned.map Prod.fst).toFinset ∪ ts.toFinset := by
  induction ts with
  | nil => intro s; simp [Component.GetIds]
  | cons T rest ih =>
    intro s
    show ((Component.GetIds rest (Component.GetId T s).2).2.assigned.map Prod.fst).toFinset = _
    rw [ih, keys_GetId]
    ext x
    simp

theorem length_le_GetId {τ : Type} [DecidableEq τ] (T : τ) (s : IdState τ) :
    s.assigned.length ≤ (Component.GetId T s).2.assigned.length := by
  cases h : lookupId T s.assigned with
  | some k => rw [GetId_of_assigned T s k h]
  | none => rw [GetId_of_unassigned T s h]; simp

theorem length_le_GetIds {τ : Type} [DecidableEq τ] (ts : List τ) :
    ∀ s : IdState τ, s.assigned.length ≤ (Component.GetIds ts s).2.assigned.length := by
  induction ts with
  | nil => intro s; exact le_refl _
  | cons T rest ih =>
    intro s
    exact le_trans (length_le_GetId T s) (ih _)

theorem Sequential_GetId {τ : Type} [DecidableEq τ] (c0 : Int) (T : τ) (s : IdState τ)
    (hs : s.Sequential c0)
    (hmax : c0 + ((Component.GetId T s).2.assigned.length : Int) ≤ INT_MAX) :
    (Component.GetId T s).2.Sequential c0 := by
  cases h : lookupId T s.assigned with
  | some k => rw [GetId_of_assigned T s k h]; exact hs
  | none =>
    rw [GetId_of_unassigned T s h] at hmax ⊢
    obtain ⟨hlo, hnext, hkeys, hids, hlt⟩ := hs
    simp only [List.length_cons] at hmax
    push_cast at hmax
    have hwrap : wrapInt (s.nextId + 1) = s.nextId + 1 :=
      wrapInt_of_inRange _ (by unfold INT_MIN at *; omega) (by omega)
    refine ⟨hlo, ?_, ?_, ?_, ?_⟩
    · show wrapInt (s.nextId + 1) = _
      rw [hwrap, hnext]
      simp
      omega
    · simp only [List.map_cons, List.nodup_cons]
      exact ⟨(lookupId_eq_none_iff T _).mp h, hkeys⟩
    · simp only [List.map_cons, List.nodup_cons]
      refine ⟨fun hmem => ?_, hids⟩
      exact lt_irrefl _ (hlt _ hmem)
    · intro k hk
      show k < wrapInt (s.nextId + 1)
      rw [hwrap]
      simp only [List.map_cons, List.mem_cons] at hk
      rcases hk with hk | hk
      · omega
      · have := hlt k hk
        omega

theorem Sequential_GetIds {τ : Type} [DecidableEq τ] (c0 : Int) (ts : List τ) :
    ∀ s : IdState τ, s.Sequential c0 →
      c0 + ((Component.GetIds ts s).2.assigned.length : Int) ≤ INT_MAX →
      (Component.GetIds ts s).2.Sequential c0 := by
  induction ts with
  | nil => intro s hs _; exact hs
  | cons T rest ih =>
    intro s hs hmax
    have hle := length_le_GetIds rest (Component.GetId T s).2
    have hmax1 : c0 + ((Component.GetId T s).2.assigned.length : Int) ≤ INT_MAX := by
      have : (Component.GetIds (T :: rest) s).2 =
          (Component.GetIds rest (Component.GetId T s).2).2 := rfl
      rw [this] at hmax
      omega
    exact ih _ (Sequential_GetId c0 T s hs hmax1) hmax

theorem Sequential_initial {τ : Type} (c0 : Int) (hlo : INT_MIN ≤ c0) :
    (IdState.initial c0 : IdState τ).Sequential c0 := by
  simp [IdState.Sequential, IdState.initial, hlo]

theorem keysNodup_GetId {τ : Type} [DecidableEq τ] (T : τ) (s : IdState τ)
    (hs : (s.assigned.map Prod.fst).Nodup) :
    ((Component.GetId T s).2.assigned.map Prod.fst).Nodup := by
  cases h : lookupId T s.assigned with
  | some k => rw [GetId_of_assigned T s k h]; exact hs
  | none =>
    rw [GetId_of_unassigned T s h]
    simp only [List.map_cons, List.nodup_cons]
    exact ⟨(lookupId_eq_none_iff T _).mp h, hs⟩

theorem keysNodup_GetIds {τ : Type} [DecidableEq τ] (ts : List τ) :
    ∀ s : IdState τ, (s.assigned.map Prod.fst).Nodup →
      ((Component.GetIds ts s).2.assigned.map Prod.fst).Nodup := by
  induction ts with
  | nil => intro s hs; exact hs
  | cons T rest ih =>
    intro s hs
    exact ih _ (keysNodup_GetId T s hs)

/-- From the initial state, the number of assigned types after a sequence of calls is the
number of distinct types in the sequence. -/
theorem length_assigned_GetIds {τ : Type} [DecidableEq τ] (c0 : Int) (ts : List τ) :
    (Component.GetIds ts (IdState.initial c0)).2.assigned.length = ts.toFinset.card := by
  have hk := keys_GetIds ts (IdState.initial c0)
  have hcard := List.toFinset_card_of_nodup
    (keysNodup_GetIds ts (IdState.initial c0) (by simp [IdState.initial]))
  rw [hk] at hcard
  have hnil : ((IdState.initial c0 : IdState τ).assigned.map Prod.fst).toFinset = ∅ := rfl
  rw [hnil, Finset.empty_union] at hcard
  simpa using hcard.symm

theorem Sequential_after_GetIds {τ : Type} [DecidableEq τ] (c0 : Int) (ts : List τ)
    (hlo : INT_MIN ≤ c0) (hhi : c0 + (ts.toFinset.card : Int) ≤ INT_MAX) :
    (Component.GetIds ts (IdState.initial c0)).2.Sequential c0 := by
  apply Sequential_GetIds c0 ts _ (Sequential_initial c0 hlo)
  rw [length_assigned_GetIds]
  exact hhi

theorem length_ids_GetIds {τ : Type} [DecidableEq τ] (ts : List τ) :
    ∀ s : IdState τ, (Component.GetIds ts s).1.length = ts.length := by
  induction ts with
  | nil => intro s; rfl
  | cons T rest ih =>
    intro s
    show ((Component.GetId T s).1 :: (Component.GetIds rest (Component.GetId T s).2).1).length = _
    simp [ih]

theorem GetIds_append {τ : Type} [DecidableEq τ] (p q : List τ) :
    ∀ s : IdState τ, Component.GetIds (p ++ q) s =
      ((Component.GetIds p s).1 ++ (Component.GetIds q (Component.GetIds p s).2).1,
        (Component.GetIds q (Component.GetIds p s).2).2) := by
  induction p with
  | nil => intro s; simp [Component.GetIds]
  | cons T rest ih =>
    intro s
    have h := ih (Component.GetId T s).2
    show ((Component.GetId T s).1 :: (Component.GetIds (rest ++ q) (Component.GetId T s).2).1,
      (Component.GetIds (rest ++ q) (Component.GetId T s).2).2) = _
    rw [h]
    rfl

/-- The id that a call of a sequence returned is the id assigned to its type in the final
state. -/
theorem lookupId_of_returned {τ : Type} [DecidableEq τ] (ts : List τ) :
    ∀ (s : IdState τ) (i : Nat) (T : τ) (k : Int), ts[i]? = some T →
      (Component.GetIds ts s).1[i]? = some k →
      lookupId T (Component.GetIds ts s).2.assigned = some k := by
  induction ts with
  | nil => intro s i T k h; simp at h
  | cons U rest ih =>
    intro s i T k hT hk
    have hids : (Component.GetIds (U :: rest) s).1 =
        (Component.GetId U s).1 :: (Component.GetIds rest (Component.GetId U s).2).1 := rfl
    have hst : (Component.GetIds (U :: rest) s).2 =
        (Component.GetIds rest (Component.GetId U s).2).2 := rfl
    rw [hids] at hk
    rw [hst]
    cases i with
    | zero =>
      simp only [List.getElem?_cons_zero, Option.some.injEq] at hT hk
      subst hT hk
      exact lookupId_GetIds_of_assigned rest _ U _ (lookupId_GetId_self U s)
    | succ n =>
      simp only [List.getElem?_cons_succ] at hT hk
      exact ih _ n T k hT hk

theorem Sequential_injective {τ : Type} [DecidableEq τ] (c0 : Int) (s : IdState τ)
    (hs : s.Sequential c0) (T1 T2 : τ) (k : Int) (h1 : lookupId T1 s.assigned = some k)
    (h2 : lookupId T2 s.assigned = some k) : T1 = T2 := by
  have hinj := List.inj_on_of_nodup_map hs.2.2.2.1
    (mem_of_lookupId T1 k _ h1) (mem_of_lookupId T2 k _ h2) rfl
  exact congrArg Prod.fst hinj

/-- The first call for a type after a sequence of calls from the initial state returns the
initial counter plus the number of distinct types of the sequence. -/
theorem GetId_first_use {τ : Type} [DecidableEq τ] (c0 : Int) (p : List τ) (T : τ)
    (hlo : INT_MIN ≤ c0) (hhi : c0 + (p.toFinset.card : Int) ≤ INT_MAX) (hnew : T ∉ p) :
    Component.GetId T (Component.GetIds p (IdState.initial c0)).2 =
      (c0 + (p.toFinset.card : Int),
        { nextId := wrapInt (c0 + (p.toFinset.card : Int) + 1)
          assigned := (T, c0 + (p.toFinset.card : Int)) ::
            (Component.GetIds p (IdState.initial c0)).2.assigned }) := by
  have hseq := Sequential_after_GetIds c0 p hlo hhi
  have hnone : lookupId T (Component.GetIds p (IdState.initial c0)).2.assigned = none := by
    rw [lookupId_eq_none_iff, ← List.mem_toFinset, keys_GetIds]
    simp [IdState.initial, hnew]
  rw [GetId_of_unassigned T _ hnone, hseq.2.1, length_assigned_GetIds]

theorem card_range_capacity : (List.range 32).toFinset.card = 32 := by
  rw [List.toFinset_card_of_nodup (List.nodup_range 32), List.length_range]

/-- C9 (counterexample): from the initial counter `INT_MAX`, the second distinct component type
receives the id `INT_MIN`, not `INT_MAX + 2 - 1`. -/
theorem GetId_second_id_at_int_max :
    (Component.GetIds [(0 : Nat), 1] (IdState.initial INT_MAX)).1 = [INT_MAX, INT_MIN] ∧
    (Component.GetIds [(0 : Nat), 1] (IdState.initial INT_MAX)).1[1]? ≠
      some (INT_MAX + 2 - 1) := by
  constructor
  · decide
  · decide

/-- C9 (amended): starting from the initial counter `c0`, for every sequence of `GetId` calls
over any component types during which the counter stays within the `int` range (`c0` plus the
number of distinct types is at most `INT_MAX`), two calls for distinct component types never
return the same id, and the first call for the n-th distinct type returns `c0 + n - 1`: `c0`
plus the number of distinct types referenced before it. -/
theorem GetId_ids_never_reused {τ : Type} [DecidableEq τ] (c0 : Int) (ts : List τ)
    (hlo : INT_MIN ≤ c0) (hhi : c0 + (ts.toFinset.card : Int) ≤ INT_MAX) :
    (∀ (i j : Nat) (T1 T2 : τ) (k1 k2 : Int), ts[i]? = some T1 → ts[j]? = some T2 →
        (Component.GetIds ts (IdState.initial c0)).1[i]? = some k1 →
        (Component.GetIds ts (IdState.initial c0)).1[j]? = some k2 →
        T1 ≠ T2 → k1 ≠ k2) ∧
      (∀ (p : List τ) (T : τ) (rest : List τ), ts = p ++ T :: rest → T ∉ p →
        (Component.GetIds ts (IdState.initial c0)).1[p.length]? =
          some (c0 + (p.toFinset.card : Int))) := by
  constructor
  · intro i j T1 T2 k1 k2 hT1 hT2 hk1 hk2 hne heq
    subst heq
    exact hne (Sequential_injective c0 _ (Sequential_after_GetIds c0 ts hlo hhi) T1 T2 k1
      (lookupId_of_returned ts _ i T1 k1 hT1 hk1) (lookupId_of_returned ts _ j T2 k1 hT2 hk2))
  · intro p T rest hts hnew
    have hsub : p.toFinset.card ≤ ts.toFinset.card := by
      apply Finset.card_le_card
      intro x hx
      rw [List.mem_toFinset] at hx ⊢
      rw [hts]
      exact List.mem_append_left _ hx
    have hfirst := GetId_first_use c0 p T hlo (by omega) hnew
    rw [hts, GetIds_append]
    have hlen := length_ids_GetIds p (IdState.initial c0)
    rw [List.getElem?_append_right (by omega), hlen, Nat.sub_self]
    have hhead : (Component.GetIds (T :: rest) (Component.GetIds p (IdState.initial c0)).2).1 =
        (Component.GetId T (Component.GetIds p (IdState.initial c0)).2).1 ::
          (Component.GetIds rest
            (Component.GetId T (Component.GetIds p (IdState.initial c0)).2).2).1 := rfl
    rw [hhead, hfirst]
    simp

/-- Witness of C9: the calls for the types 5, 7, 5, 9 from the counter 0; the call for 9, the
third distinct type, returns 2. -/
theorem GetId_ids_never_reused_witness :
    (Component.GetIds [(5 : Nat), 7, 5, 9] (IdState.initial 0)).1[[(5 : Nat), 7, 5].length]? =
      some (0 + (([(5 : Nat), 7, 5].toFinset.card : Nat) : Int)) :=
  (GetId_ids_never_reused (0 : Int) [(5 : Nat), 7, 5, 9] (by decide) (by decide)).2
    [5, 7, 5] 9 [] rfl (by decide)

/-- C10 (counterexample): from the counter 0, after the 32 component types 0, ..., 31 have been
assigned ids, the first `GetId` call for the further type 32 returns the id 32. -/
theorem GetId_returns_id_at_capacity :
    (Component.GetIds (List.range 32) (IdState.initial 0)).2.assigned.length = MAX_COMPONENTS ∧
    (Component.GetId (32 : Nat) (Component.GetIds (List.range 32) (IdState.initial 0)).2).1
      = 32 := by
  constructor
  · rw [length_assigned_GetIds, card_range_capacity]
    rfl
  · rw [GetId_first_use (0 : Int) (List.range 32) 32 (by decide)
      (by rw [card_range_capacity]; decide) (by simp), card_range_capacity]
    rfl

/-- C10 (amended): `GetId` has no capacity check. For every id-assignment state reached from a
counter `c0 ≥ 0` in which `MAX_COMPONENTS` (32) distinct component types have been assigned
ids, a first `GetId` call for a further component type does not fail: it returns the next
sequential id `c0 + 32` (32 for a counter started at 0), which is not below 32 and is not an id
already in use, and advances the counter to `c0 + 33`. The id is refused only when it is used
as a bit position: `RequireComponent` for that type fails with `std::out_of_range`. -/
theorem GetId_no_capacity_check {τ : Type} [DecidableEq τ] (c0 : Int) (ts : List τ) (T : τ)
    (sys : System) (hlo : 0 ≤ c0) (hhi : c0 + 33 ≤ INT_MAX)
    (hfull : (Component.GetIds ts (IdState.initial c0)).2.assigned.length = MAX_COMPONENTS)
    (hnew : T ∉ ts) :
    (Component.GetId T (Component.GetIds ts (IdState.initial c0)).2).1 = c0 + 32 ∧
      (32 : Int) ≤ (Component.GetId T (Component.GetIds ts (IdState.initial c0)).2).1 ∧
      (Component.GetId T (Component.GetIds ts (IdState.initial c0)).2).2.nextId = c0 + 33 ∧
      (∀ U : τ, lookupId U (Component.GetIds ts (IdState.initial c0)).2.assigned
        ≠ some (c0 + 32)) ∧
      System.RequireComponent T (Component.GetIds ts (IdState.initial c0)).2 sys
        = .error .outOfRange := by
  have hcard : ts.toFinset.card = 32 := by
    rw [← length_assigned_GetIds c0 ts, hfull]
    rfl
  have hlo2 : INT_MIN ≤ c0 := by unfold INT_MIN; omega
  have hfirst := GetId_first_use c0 ts T hlo2 (by rw [hcard]; push_cast; omega) hnew
  rw [hcard] at hfirst
  push_cast at hfirst
  have hseq := Sequential_after_GetIds c0 ts hlo2 (by rw [hcard]; push_cast; omega)
  have hwrap : wrapInt (c0 + 32 + 1) = c0 + 33 := by
    rw [wrapInt_of_inRange _ (by unfold INT_MIN; omega) (by omega)]
    omega
  refine ⟨by rw [hfirst], by rw [hfirst]; show (32 : Int) ≤ c0 + 32; omega,
    by rw [hfirst]; exact hwrap, ?_, ?_⟩
  · intro U hU
    have hlt := hseq.2.2.2.2 (c0 + 32) (List.mem_map.mpr ⟨(U, c0 + 32), mem_of_lookupId U _ _ hU, rfl⟩)
    rw [hseq.2.1, hfull] at hlt
    simp [MAX_COMPONENTS] at hlt
  · unfold System.RequireComponent
    rw [hfirst]
    have hset : Signature.set sys.componentSignature (c0 + 32) = .error .outOfRange := by
      unfold Signature.set
      rw [if_neg]
      simp only [MAX_COMPONENTS]
      push_cast
      omega
    simp only [hset]

/-- Witness of C10: the counter started at 0 and the component types 0, ..., 31 assigned; the
further type 32 receives the id 32. -/
theorem GetId_no_capacity_check_witness :
    (Component.GetId (32 : Nat) (Component.GetIds (List.range 32) (IdState.initial 0)).2).1
      = 0 + 32 :=
  (GetId_no_capacity_check (0 : Int) (List.range 32) (32 : Nat) System.new (by decide)
    (by decide)
    (by rw [length_assigned_GetIds, card_range_capacity]; rfl) (by simp)).1

/-! ## Entities -/

theorem Entity.eq_iff (a b : Entity) : a.eq b = true ↔ a.GetId = b.GetId := by
  simp [Entity.eq, Entity.GetId]

/-- C13: entity comparison is determined by the id alone: `a == b` exactly when the ids are
equal, `a != b` exactly when `a == b` is false, `a < b` exactly when the id of `a` is below the
id of `b`, `a > b` exactly when `b < a`; so `<` is irreflexive and transitive, and for every
two entities exactly one of `a < b`, `a == b`, `b < a` holds. -/
theorem Entity_comparison_by_id :
    (∀ a b : Entity, a.eq b = true ↔ a.GetId = b.GetId) ∧
      (∀ a b : Entity, a.ne b = true ↔ ¬ (a.eq b = true)) ∧
      (∀ a b : Entity, a.lt b = true ↔ a.GetId < b.GetId) ∧
      (∀ a b : Entity, a.gt b = true ↔ b.lt a = true) ∧
      (∀ a : Entity, ¬ (a.lt a = true)) ∧
      (∀ a b c : Entity, a.lt b = true → b.lt c = true → a.lt c = true) ∧
      (∀ a b : Entity,
        (a.lt b = true ∧ ¬ (a.eq b = true) ∧ ¬ (b.lt a = true)) ∨
        (¬ (a.lt b = true) ∧ a.eq b = true ∧ ¬ (b.lt a = true)) ∨
        (¬ (a.lt b = true) ∧ ¬ (a.eq b = true) ∧ b.lt a = true)) := by
  refine ⟨Entity.eq_iff, ?_, ?_, ?_, ?_, ?_, ?_⟩
  · intro a b
    simp [Entity.ne, Entity.eq, Entity.GetId]
  · intro a b
    simp [Entity.lt, Entity.GetId]
  · intro a b
    simp [Entity.gt, Entity.lt, Entity.GetId]
  · intro a
    simp [Entity.lt, Entity.GetId]
  · intro a b c
    simp only [Entity.lt, Entity.GetId, decide_eq_true_eq]
    exact lt_trans
  · intro a b
    simp only [Entity.lt, Entity.eq, Entity.GetId, decide_eq_true_eq, beq_iff_eq]
    omega

/-! ## Systems -/

/-- The predicate that `RemoveEntityFromSystem` keeps by: an element stays exactly when its id
differs from the id of the removed entity. -/
theorem not_eq_iff_id_ne (e other : Entity) : (!(e.eq other)) = true ↔ other.id ≠ e.id := by
  simp only [Entity.eq, Entity.GetId, Bool.not_eq_true', beq_eq_false_iff_ne, ne_eq]
  exact ⟨fun h heq => h heq.symm, fun h heq => h heq.symm⟩

/-- C11: for every system and every entity `e`, if no element of the system's entity list has
the id of `e` then `RemoveEntityFromSystem(e)` leaves the system, and so its entity list,
unchanged; and for every system, `RemoveEntityFromSystem(e)` applied twice gives the same
system as applied once. -/
theorem RemoveEntityFromSystem_idempotent (s : System) (e : Entity) :
    ((∀ x ∈ s.entities, x.id ≠ e.id) →
        (s.RemoveEntityFromSystem e).entities = s.entities ∧ s.RemoveEntityFromSystem e = s) ∧
      (s.RemoveEntityFromSystem e).RemoveEntityFromSystem e = s.RemoveEntityFromSystem e := by
  constructor
  · intro hnot
    have hfilter : s.entities.filter (fun other => !(e.eq other)) = s.entities := by
      rw [List.filter_eq_self]
      intro x hx
      exact (not_eq_iff_id_ne e x).mpr (hnot x hx)
    constructor
    · exact hfilter
    · cases s
      simp only [System.RemoveEntityFromSystem] at hfilter ⊢
      rw [hfilter]
  · simp [System.RemoveEntityFromSystem]

/-- Witness of C11: removing the entity 3 from a system that lists the entities 1 and 2. -/
theorem RemoveEntityFromSystem_idempotent_witness :
    (({ componentSignature := 5, entities := [{ id := 1 }, { id := 2 }] } :
        System).RemoveEntityFromSystem { id := 3 }).entities = [{ id := 1 }, { id := 2 }] :=
  ((RemoveEntityFromSystem_idempotent
    { componentSignature := 5, entities := [{ id := 1 }, { id := 2 }] } { id := 3 }).1
    (by decide)).1

/-- C17: for every system with entity list `L` and every entity `e`, after
`RemoveEntityFromSystem(e)` the entity list is `L` filtered to the elements whose id differs
from `e.id`, in their order in `L`; no element with the id of `e` is left, in particular `e`
itself, every entity with another id occurs as often as before, and `componentSignature` is
unchanged. -/
theorem RemoveEntityFromSystem_removes_all (s : System) (e : Entity) :
    (s.RemoveEntityFromSystem e).GetSystemEntities
        = s.entities.filter (fun x => decide (x.id ≠ e.id)) ∧
      (s.RemoveEntityFromSystem e).GetSystemEntities.Sublist s.entities ∧
      (∀ x ∈ (s.RemoveEntityFromSystem e).GetSystemEntities, x.id ≠ e.id) ∧
      e ∉ (s.RemoveEntityFromSystem e).GetSystemEntities ∧
      (∀ x : Entity, x.id ≠ e.id →
        (s.RemoveEntityFromSystem e).GetSystemEntities.count x = s.entities.count x) ∧
      (s.RemoveEntityFromSystem e).GetComponentSignature = s.GetComponentSignature := by
  have hpred : (fun other => !(e.eq other)) = (fun x : Entity => decide (x.id ≠ e.id)) := by
    funext x
    by_cases h : x.id = e.id
    · simp [Entity.eq, Entity.GetId, h]
    · simp [Entity.eq, Entity.GetId, h, Ne.symm h]
  have hlist : (s.RemoveEntityFromSystem e).GetSystemEntities
      = s.entities.filter (fun x => decide (x.id ≠ e.id)) := by
    show s.entities.filter (fun other => !(e.eq other)) = _
    rw [hpred]
  refine ⟨hlist, ?_, ?_, ?_, ?_, rfl⟩
  · rw [hlist]
    exact List.filter_sublist _
  · intro x hx
    rw [hlist, List.mem_filter] at hx
    simpa using hx.2
  · intro hmem
    rw [hlist, List.mem_filter] at hmem
    simp at hmem
  · intro x hx
    rw [hlist]
    exact List.count_filter (by simpa using hx)

/-- C19: for every system with entity list `L` and every entity `e`, after
`AddEntityToSystem(e)` `GetSystemEntities()` returns `L` followed by `e` and the signature is
unchanged; and if no element of `L` has the id of `e`, then `AddEntityToSystem(e)` followed by
`RemoveEntityFromSystem(e)` gives back the system, with entity list exactly `L`. -/
theorem AddEntityToSystem_appends (s : System) (e : Entity) :
    (s.AddEntityToSystem e).GetSystemEntities = s.GetSystemEntities ++ [e] ∧
      (s.AddEntityToSystem e).GetComponentSignature = s.GetComponentSignature ∧
      ((∀ x ∈ s.entities, x.id ≠ e.id) →
        ((s.AddEntityToSystem e).RemoveEntityFromSystem e).GetSystemEntities = s.entities ∧
        (s.AddEntityToSystem e).RemoveEntityFromSystem e = s) := by
  refine ⟨rfl, rfl, ?_⟩
  intro hnot
  have hfilter : (s.entities ++ [e]).filter (fun other => !(e.eq other)) = s.entities := by
    rw [List.filter_append]
    have h1 : s.entities.filter (fun other => !(e.eq other)) = s.entities := by
      rw [List.filter_eq_self]
      intro x hx
      exact (not_eq_iff_id_ne e x).mpr (hnot x hx)
    rw [h1]
    simp [Entity.eq, Entity.GetId]
  constructor
  · exact hfilter
  · cases s
    simp only [System.AddEntityToSystem, System.RemoveEntityFromSystem] at hfilter ⊢
    rw [hfilter]

/-- Witness of C19: adding the entity 3 to a system that lists the entities 1 and 2, then
removing it. -/
theorem AddEntityToSystem_appends_witness :
    ((({ componentSignature := 5, entities := [{ id := 1 }, { id := 2 }] } :
        System).AddEntityToSystem { id := 3 }).RemoveEntityFromSystem { id := 3 })
      = { componentSignature := 5, entities := [{ id := 1 }, { id := 2 }] } :=
  ((AddEntityToSystem_appends
    { componentSignature := 5, entities := [{ id := 1 }, { id := 2 }] } { id := 3 }).2.2
    (by decide)).2

/-! ## Pools -/

theorem GetSize_eq_length {α : Type} (p : Pool α) (h : (p.data.length : Int) ≤ INT_MAX) :
    p.GetSize = (p.data.length : Int) :=
  wrapInt_of_inRange _ (by unfold INT_MIN; omega) h

theorem vecGet_set_self {β : Type} (l : List β) (i : Int) (x : β) (h0 : 0 ≤ i)
    (h : i.toNat < l.length) : vecGet (l.set i.toNat x) i = .ok x := by
  apply vecGet_ok _ _ _ h0
  simp [h]

theorem vecGet_set_ne {β : Type} (l : List β) (i j : Int) (x : β) (h0 : 0 ≤ i) (hne : j ≠ i) :
    vecGet (l.set i.toNat x) j = vecGet l j := by
  unfold vecGet
  by_cases hj : 0 ≤ j
  · have hnat : i.toNat ≠ j.toNat := by omega
    simp only [if_pos hj, List.getElem?_set_ne hnat]
  · simp only [if_neg hj]

/-- C16: for every pool, every index `i` with `0 ≤ i < GetSize()` and every value `v`,
`Set(i, v)` completes, afterwards `Get(i)` returns `v`, `Get(j)` is as before for every index
`j ≠ i`, and `GetSize()` is as before. -/
theorem Pool_Get_after_Set {α : Type} (p : Pool α) (i : Int) (v : α) (h0 : 0 ≤ i)
    (hlt : i < p.GetSize) :
    ∃ q, p.Set i v = .ok q ∧ q.Get i = .ok v ∧ (∀ j : Int, j ≠ i → q.Get j = p.Get j) ∧
      q.GetSize = p.GetSize := by
  have hlen := lt_length_of_lt_GetSize p i h0 hlt
  refine ⟨{ data := p.data.set i.toNat v }, Pool.Set_ok p i v h0 hlen, ?_, ?_, ?_⟩
  · exact vecGet_set_self p.data i v h0 hlen
  · intro j hj
    exact vecGet_set_ne p.data i j v h0 hj
  · simp [Pool.GetSize]

/-- Witness of C16: writing 9 to slot 1 of a pool of three slots. -/
theorem Pool_Get_after_Set_witness :
    ∃ q, ({ data := [4, 5, 6] } : Pool Nat).Set 1 9 = .ok q ∧ q.Get 1 = .ok 9 :=
  (Pool_Get_after_Set ({ data := [4, 5, 6] } : Pool Nat) 1 9 (by decide) (by decide)).elim
    (fun q hq => ⟨q, hq.1, hq.2.1⟩)

theorem Pool.Resize_grow {α : Type} [Inhabited α] (p : Pool α) (n : Int)
    (hn : (p.data.length : Int) ≤ n) :
    p.Resize n = .ok { data := p.data ++ List.replicate (n.toNat - p.data.length) default } := by
  have htake : p.data.take n.toNat = p.data := List.take_of_length_le (by omega)
  rw [Pool.Resize_eq_ok_iff]
  exact ⟨by omega, by rw [htake]⟩

theorem vecGet_append_left {β : Type} (l m : List β) (j : Int) (hj : j < (l.length : Int)) :
    vecGet (l ++ m) j = vecGet l j := by
  unfold vecGet
  by_cases hj0 : 0 ≤ j
  · have hjn : j.toNat < l.length := by omega
    simp only [if_pos hj0, List.getElem?_append_left hjn]
  · simp only [if_neg hj0]

/-- C15: for every pool of size `s` and every `int` `n ≥ s`, `Resize(n)` completes, afterwards
`GetSize()` is `n`, `Get(j)` returns the same value as before the call for every index
`j < s`, and every new slot `j` in `[s, n)` holds the default-constructed value. Before the
call `GetSize()` is `s`. -/
theorem Pool_Resize_preserves {α : Type} [Inhabited α] (p : Pool α) (n : Int)
    (hn : (p.data.length : Int) ≤ n) (hmax : n ≤ INT_MAX) :
    p.GetSize = (p.data.length : Int) ∧
      ∃ q, p.Resize n = .ok q ∧ q.GetSize = n ∧
        (∀ j : Int, 0 ≤ j → j < (p.data.length : Int) → q.Get j = p.Get j) ∧
        (∀ j : Int, (p.data.length : Int) ≤ j → j < n → q.Get j = .ok default) := by
  refine ⟨GetSize_eq_length p (by omega), _, Pool.Resize_grow p n hn, ?_, ?_, ?_⟩
  · have hlen : ((p.data ++ List.replicate (n.toNat - p.data.length) (default : α)).length : Int)
        = n := by
      simp only [List.length_append, List.length_replicate]
      omega
    unfold Pool.GetSize
    rw [hlen]
    exact wrapInt_of_inRange _ (by unfold INT_MIN; omega) hmax
  · intro j _ hjlt
    exact vecGet_append_left _ _ j hjlt
  · intro j hjge hjlt
    have hj0 : 0 ≤ j := by omega
    apply vecGet_ok _ _ _ hj0
    rw [List.getElem?_append_right (by omega)]
    rw [List.getElem?_replicate]
    rw [if_pos (by omega)]

/-- Witness of C15: growing a pool of two slots to four. -/
theorem Pool_Resize_preserves_witness :
    ∃ q, ({ data := [4, 5] } : Pool Nat).Resize 4 = .ok q ∧ q.GetSize = 4 :=
  (Pool_Resize_preserves ({ data := [4, 5] } : Pool Nat) 4 (by decide) (by decide)).2.elim
    (fun q hq => ⟨q, hq.1, hq.2.1⟩)

/-- C14 (counterexample): `Set(2, 9)` on a pool of two slots, where `GetSize()` is 2, does not
complete: the write `data[2]` is out of bounds and the pool is not grown. -/
theorem Pool_Set_beyond_size_faults :
    ({ data := [4, 5] } : Pool Nat).GetSize = 2 ∧
    ({ data := [4, 5] } : Pool Nat).Set 2 9 = .error .outOfBounds := by
  constructor
  · decide
  · rfl

/-- C14 (amended): `Pool::Set` does not grow the pool. For every pool, every index `i` at or
beyond the size of the pool and every value `v`, `Set(i, v)` does not complete: the write
`data[i]` is out of bounds. When the size of the pool is at most `INT_MAX`, these are the
indices `i ≥ GetSize()`. -/
theorem Pool_Set_does_not_grow {α : Type} (p : Pool α) (i : Int) (v : α) :
    ((p.data.length : Int) ≤ i → p.Set i v = .error .outOfBounds) ∧
      ((p.data.length : Int) ≤ INT_MAX → p.GetSize ≤ i → p.Set i v = .error .outOfBounds) := by
  have hfault : (p.data.length : Int) ≤ i → p.Set i v = .error .outOfBounds := by
    intro hi
    apply Pool.Set_fault
    omega
  refine ⟨hfault, ?_⟩
  intro hsize hi
  rw [GetSize_eq_length p hsize] at hi
  exact hfault hi

/-- Witness of C14: `Set(5, 9)` on a pool of two slots. -/
theorem Pool_Set_does_not_grow_witness :
    ({ data := [4, 5] } : Pool Nat).Set 5 9 = .error .outOfBounds :=
  (Pool_Set_does_not_grow ({ data := [4, 5] } : Pool Nat) 5 9).2 (by decide) (by decide)

/-! ## System.RequireComponent -/

theorem testBit_set_other (s k j : Nat) (h : j ≠ k) :
    (s ||| (1 <<< k)).testBit j = s.testBit j := by
  rw [Nat.testBit_or, Nat.one_shiftLeft, Nat.testBit_two_pow_of_ne (Ne.symm h), Bool.or_false]

theorem RequireComponent_ok {τ : Type} [DecidableEq τ] (T : τ) (ids : IdState τ) (s : System)
    (hk : 0 ≤ (Component.GetId T ids).1 ∧ (Component.GetId T ids).1 < 32) :
    System.RequireComponent T ids s = .ok ((Component.GetId T ids).2,
      { s with componentSignature :=
          s.componentSignature ||| (1 <<< (Component.GetId T ids).1.toNat) }) := by
  unfold System.RequireComponent
  simp only [Signature.set_ok _ _ hk]

/-- C12: for every system, every id-assignment state and every component type `T` whose id
`k = GetId<T>()` is a bit position of the signature (`0 ≤ k < 32`), `RequireComponent<T>()`
completes, afterwards bit `k` of `componentSignature` is set, every other bit has its previous
value, and the entity list is unchanged; a second `RequireComponent<T>()` changes neither the
system nor the id-assignment state. -/
theorem RequireComponent_sets_bit {τ : Type} [DecidableEq τ] (T : τ) (ids : IdState τ)
    (s : System)
    (hk : 0 ≤ (Component.GetId T ids).1 ∧ (Component.GetId T ids).1 < 32) :
    ∃ s1, System.RequireComponent T ids s = .ok ((Component.GetId T ids).2, s1) ∧
      s1.componentSignature.testBit (Component.GetId T ids).1.toNat = true ∧
      (∀ j : Nat, j ≠ (Component.GetId T ids).1.toNat →
        s1.componentSignature.testBit j = s.componentSignature.testBit j) ∧
      s1.entities = s.entities ∧
      System.RequireComponent T (Component.GetId T ids).2 s1
        = .ok ((Component.GetId T ids).2, s1) := by
  refine ⟨_, RequireComponent_ok T ids s hk, testBit_set_self _ _,
    fun j hj => testBit_set_other _ _ j hj, rfl, ?_⟩
  have hagain : Component.GetId T (Component.GetId T ids).2 =
      ((Component.GetId T ids).1, (Component.GetId T ids).2) :=
    GetId_of_assigned T _ _ (lookupId_GetId_self T ids)
  have hk2 : 0 ≤ (Component.GetId T (Component.GetId T ids).2).1 ∧
      (Component.GetId T (Component.GetId T ids).2).1 < 32 := by
    rw [hagain]
    exact hk
  rw [RequireComponent_ok T _ _ hk2, hagain]
  simp only [Nat.or_assoc, Nat.or_self]

/-- Witness of C12: the first component type of a program, with id 0, required by a new
system. -/
theorem RequireComponent_sets_bit_witness :
    ∃ s1, System.RequireComponent (7 : Nat) (IdState.initial 0) System.new
        = .ok ((Component.GetId (7 : Nat) (IdState.initial 0)).2, s1) ∧
      s1.componentSignature.testBit (Component.GetId (7 : Nat) (IdState.initial 0)).1.toNat
        = true :=
  (RequireComponent_sets_bit (7 : Nat) (IdState.initial 0) System.new (by decide)).elim
    (fun s1 h => ⟨s1, h.1, h.2.1⟩)

/-! ## The parts of AddComponent -/

/-- The method `AddComponent<T>` is its pool part (lines 146 to 173) followed by the change of
the signature (line 176). -/
theorem AddComponent_eq_store_then_signature {τ α : Type} [DecidableEq τ] [Inhabited α] (T : τ)
    (e : Entity) (v : α) (ids : IdState τ) (r : Registry α) :
    Registry.AddComponent T e v ids r =
      (Registry.AddComponent.storeComponent T e v ids r >>= fun out =>
        Registry.AddComponent.setSignature (Component.GetId T ids).1 e out.2 >>= fun r2 =>
          pure (out.1, r2)) := by
  unfold Registry.AddComponent Registry.AddComponent.storeComponent
    Registry.AddComponent.setSignature
  cases h1 : Registry.AddComponent.locatePool (Component.GetId T ids).1 r.componentPools with
  | error f => simp [bind, Except.bind, h1]
  | ok located =>
    cases h2 : Registry.AddComponent.ensureSize e.GetId r.numEntities located.2 with
    | error f => simp [bind, Except.bind, h1, h2]
    | ok resized =>
      cases h3 : resized.Set e.GetId v with
      | error f => simp [bind, Except.bind, h1, h2, h3]
      | ok written =>
        cases h4 : vecSet located.1 (Component.GetId T ids).1 (some written) with
        | error f => simp [bind, Except.bind, h1, h2, h3, h4]
        | ok pools2 =>
          cases h5 : vecGet r.entityComponentSignatures e.GetId with
          | error f => simp [bind, Except.bind, pure, Except.pure, h1, h2, h3, h4, h5]
          | ok sig =>
            cases h6 : Signature.set sig (Component.GetId T ids).1 with
            | error f => simp [bind, Except.bind, pure, Except.pure, h1, h2, h3, h4, h5, h6]
            | ok sig1 =>
              cases h7 : vecSet r.entityComponentSignatures e.GetId sig1 with
              | error f => simp [bind, Except.bind, pure, Except.pure, h1, h2, h3, h4, h5, h6, h7]
              | ok sigs1 => simp [bind, Except.bind, pure, Except.pure, h1, h2, h3, h4, h5, h6, h7]

/-- The pool part of `AddComponent<T>` completes when its stages do, and stores the pool
written at the id of the component type. -/
theorem storeComponent_eq_ok {τ α : Type} [DecidableEq τ] [Inhabited α] (T : τ) (e : Entity)
    (v : α) (ids : IdState τ) (r : Registry α) (pools1 : List (Option (Pool α)))
    (pool resized written : Pool α)
    (hpool : Registry.AddComponent.locatePool (Component.GetId T ids).1 r.componentPools
      = .ok (pools1, pool))
    (hens : Registry.AddComponent.ensureSize e.id r.numEntities pool = .ok resized)
    (hset : resized.Set e.id v = .ok written) :
    Registry.AddComponent.storeComponent T e v ids r =
      .ok ((Component.GetId T ids).2,
        { r with componentPools := pools1.set (Component.GetId T ids).1.toNat (some written) }) := by
  obtain ⟨hc0, hstored⟩ := locatePool_stored _ _ _ _ hpool
  have hclt : (Component.GetId T ids).1.toNat < pools1.length := by
    by_contra hc
    rw [List.getElem?_eq_none (by omega)] at hstored
    exact Option.noConfusion hstored
  have hvs : vecSet pools1 (Component.GetId T ids).1 (some written)
      = .ok (pools1.set (Component.GetId T ids).1.toNat (some written)) :=
    (vecSet_eq_ok_iff _ _ _ _).mpr ⟨⟨hc0, hclt⟩, rfl⟩
  unfold Registry.AddComponent.storeComponent
  simp only [Entity.GetId, hpool, hens, hset, hvs, bind, Except.bind, pure, Except.pure]

theorem getElem?_set_stored {β : Type} (l : List β) (n : Nat) (x : β) (h : n < l.length) :
    (l.set n x)[n]? = some x := by
  simp [h]

/-- C7 (counterexample): on a new registry after one `CreateEntity` (`numEntities = 1`),
`AddComponent<T>` for the entity with id 5, which was never created, makes no check of the
entity: its pool part completes and changes the registry, `componentPools` goes from empty to
one pool of 100 slots whose slot 5 holds the value 7. The call then runs into the
out-of-bounds access of the empty `entityComponentSignatures`, the same access that a created
entity meets; no failure is reported for the entity and the state is not left as it was. -/
theorem AddComponent_changes_pool_for_uncreated_entity :
    ¬ ((0 : Int) ≤ 5 ∧ (5 : Int) < ((Registry.new : Registry Nat).CreateEntity).2.numEntities) ∧
    ((Registry.new : Registry Nat).CreateEntity).2.componentPools = [] ∧
    (Registry.AddComponent.storeComponent (0 : Nat) { id := 5 } (7 : Nat) (IdState.initial 0)
        ((Registry.new : Registry Nat).CreateEntity).2).toOption.map
        (fun out => out.2.componentPools.map
          (Option.map (fun p => (p.data.length, p.data.take 6))))
      = some [some (100, [0, 0, 0, 0, 0, 7])] ∧
    Registry.AddComponent (0 : Nat) { id := 5 } (7 : Nat) (IdState.initial 0)
        ((Registry.new : Registry Nat).CreateEntity).2 = .error .outOfBounds := by
  refine ⟨by decide, rfl, rfl, rfl⟩

/-- C7 (amended): `AddComponent<T>` does not check the entity id against `numEntities`. For
every registry state, every component type `T` whose pool the call finds or creates, and every
entity `e` whose id lies outside `[0, numEntities)` and within the pool (`0 ≤ e.id` below
`GetSize()` of `Pool<T>`, 100 for a pool that the call creates): the pool part of the call
(lines 146 to 173) completes without reporting a failure, it does not resize the pool, and it
changes the registry: slot `e.id` of the `Pool<T>` stored in `componentPools` holds the value.
The other slots of the pool, `numEntities`, the pending sets, `entityComponentSignatures` and
`systems` are as before when the last statement of the method is reached. -/
theorem AddComponent_stores_without_entity_check {τ α : Type} [DecidableEq τ] [Inhabited α]
    (T : τ) (e : Entity) (v : α) (ids : IdState τ) (r : Registry α)
    (pools1 : List (Option (Pool α))) (pool : Pool α)
    (hinvalid : ¬ (0 ≤ e.id ∧ e.id < r.numEntities))
    (hin : 0 ≤ e.id ∧ e.id < pool.GetSize)
    (hpool : Registry.AddComponent.locatePool (Component.GetId T ids).1 r.componentPools
      = .ok (pools1, pool)) :
    r.numEntities ≤ e.id ∧
      Registry.AddComponent.ensureSize e.id r.numEntities pool = .ok pool ∧
      ∃ out written, Registry.AddComponent.storeComponent T e v ids r = .ok out ∧
        out.1 = (Component.GetId T ids).2 ∧
        out.2.componentPools[(Component.GetId T ids).1.toNat]? = some (some written) ∧
        written.Get e.id = .ok v ∧
        (∀ j : Int, j ≠ e.id → written.Get j = pool.Get j) ∧
        written.GetSize = pool.GetSize ∧
        out.2.numEntities = r.numEntities ∧
        out.2.entitiesToBeAdded = r.entitiesToBeAdded ∧
        out.2.entitiesToBeKilled = r.entitiesToBeKilled ∧
        out.2.entityComponentSignatures = r.entityComponentSignatures ∧
        out.2.systems = r.systems := by
  obtain ⟨h0, hsize⟩ := hin
  have hlen := lt_length_of_lt_GetSize pool e.id h0 hsize
  have hens : Registry.AddComponent.ensureSize e.id r.numEntities pool = .ok pool := by
    unfold Registry.AddComponent.ensureSize
    rw [if_neg (by omega)]
    rfl
  have hset := Pool.Set_ok pool e.id v h0 hlen
  obtain ⟨_, hstored⟩ := locatePool_stored _ _ _ _ hpool
  have hclt : (Component.GetId T ids).1.toNat < pools1.length := by
    by_contra hc
    rw [List.getElem?_eq_none (by omega)] at hstored
    exact Option.noConfusion hstored
  refine ⟨by omega, hens, _, { data := pool.data.set e.id.toNat v },
    storeComponent_eq_ok T e v ids r pools1 pool pool _ hpool hens hset, rfl,
    getElem?_set_stored _ _ _ hclt, vecGet_set_self pool.data e.id v h0 hlen,
    fun j hj => vecGet_set_ne pool.data e.id j v h0 hj, ?_, rfl, rfl, rfl, rfl, rfl⟩
  simp [Pool.GetSize]

/-- Witness of C7: on a new registry after one `CreateEntity`, the call for the entity with
id 5 and the first component type, whose pool of 100 slots the call creates. -/
theorem AddComponent_stores_without_entity_check_witness :
    ∃ out written, Registry.AddComponent.storeComponent (0 : Nat) { id := 5 } (7 : Nat)
        (IdState.initial 0) ((Registry.new : Registry Nat).CreateEntity).2 = .ok out ∧
      out.2.componentPools[(Component.GetId (0 : Nat) (IdState.initial 0)).1.toNat]?
        = some (some written) ∧
      written.Get 5 = .ok 7 :=
  (AddComponent_stores_without_entity_check (0 : Nat) { id := 5 } (7 : Nat) (IdState.initial 0)
    ((Registry.new : Registry Nat).CreateEntity).2 [some { data := List.replicate 100 0 }]
    { data := List.replicate 100 0 } (by decide) (by decide) rfl).2.2.elim
    (fun out h => h.elim (fun written hw => ⟨out, written, hw.1, hw.2.2.1, hw.2.2.2.1⟩))

/-! ## The registry states that a program can build -/

end ECS
